import Mathlib

/-!
Verification of the price-intelligence core of price-monitor-web.

Shallow embedding of backend/scraper.py, backend/buywisely.py and
backend/scheduler.py: Python floats are modelled as rationals, datetimes as
microseconds since a fixed epoch, and Python dicts as insertion-ordered
association lists.  Each definition carries the file and line range of the
source code it embeds.
-/

namespace PriceMonitor

/-- Microseconds per hour. -/
def usPerHour : ℤ := 3600 * 1000000

/-- Microseconds per day. -/
def usPerDay : ℤ := 24 * usPerHour

/-- Python str.lower() for the ASCII strings handled by this code. -/
def pyLower (s : String) : String := String.mk (s.data.map Char.toLower)

/-- Python substring test: needle in hay. -/
def inStr (needle hay : String) : Bool := decide (needle.data <:+: hay.data)

/-- Python dict assignment d[k] = v on an insertion-ordered association list:
an existing key keeps its position and receives the new value, a new key is
appended at the end.  Keys are unique, as in a Python dict. -/
def dictAssign {κ β : Type} [DecidableEq κ] : List (κ × β) → κ → β → List (κ × β)
  | [], k, v => [(k, v)]
  | p :: rest, k, v =>
    if p.1 = k then (k, v) :: rest else p :: dictAssign rest k v

/-- Python dict lookup d.get(k). -/
def lookupA {κ β : Type} [DecidableEq κ] : List (κ × β) → κ → Option β
  | [], _ => none
  | p :: rest, k => if p.1 = k then some p.2 else lookupA rest k

/-- Python min over a list of floats; the sources apply it to nonempty lists only. -/
def pyMin (l : List ℚ) : ℚ :=
  match l with
  | [] => 0
  | x :: xs => xs.foldl min x

/-- statistics.mean. -/
def pyMean (l : List ℚ) : ℚ := l.sum / l.length

/-- Round half to even to an integer, Python's round(x). -/
def roundHalfEven (q : ℚ) : ℤ :=
  if q - ⌊q⌋ < 1 / 2 then ⌊q⌋
  else if q - ⌊q⌋ > 1 / 2 then ⌊q⌋ + 1
  else if ⌊q⌋ % 2 = 0 then ⌊q⌋ else ⌊q⌋ + 1

/-- Python round(x, n). -/
def pyRound (n : ℕ) (q : ℚ) : ℚ := (roundHalfEven (q * 10 ^ n) : ℚ) / 10 ^ n

/-- Python min(items, key=f): the first element attaining the minimal key;
none on an empty list (where Python would raise). -/
def pyMinBy {α : Type} (f : α → ℚ) : List α → Option α
  | [] => none
  | x :: xs => some (xs.foldl (fun b y => if f y < f b then y else b) x)

/-- Notification decision of scheduler._check_and_notify_user
(backend/scheduler.py lines 186-195). -/
def should_notify (previous_discount_percent current_discount_percent
    threshold_percent : ℚ) : Bool :=
  decide (current_discount_percent ≥ threshold_percent) &&
  decide (current_discount_percent > previous_discount_percent) &&
  decide (current_discount_percent > 1)

/-- Next-run computation of scheduler._run_scheduler (backend/scheduler.py
lines 42-47): now.replace(hour=6, minute=0, second=0, microsecond=0), which is
the start of now's day plus six hours, plus one day when now.hour >= 6.
Time is microseconds since the epoch. -/
def nextRunAt (now : ℤ) : ℤ :=
  if (now % usPerDay) / usPerHour ≥ 6 then
    now - now % usPerDay + 6 * usPerHour + usPerDay
  else
    now - now % usPerDay + 6 * usPerHour

/-- C1: should_notify(previous, current, threshold) returns true iff
current ≥ threshold, current > previous and current > 1; with the four
concrete fixtures of the spec. -/
theorem c1_should_notify_iff :
    (∀ p c t : ℚ, should_notify p c t = true ↔ (t ≤ c ∧ p < c ∧ 1 < c)) ∧
    should_notify 5 10 8 = true ∧ should_notify 10 10 8 = false ∧
    should_notify 0 3 8 = false ∧ should_notify 0 (1 / 2) 0 = false := by
  refine ⟨fun p c t => ?_, by decide, by decide, by decide,
    by norm_num [should_notify]⟩
  simp [should_notify, ge_iff_le, and_assoc]

/-- C9: the scheduler's next run time is 06:00 UTC strictly after now, it is
the earliest such instant, and at 07:00 UTC it falls on the following day. -/
theorem c9_next_run_is_first_six_am (now u : ℤ)
    (hu : u % usPerDay = 6 * usPerHour) (hnow : now < u) :
    now < nextRunAt now ∧ nextRunAt now % usPerDay = 6 * usPerHour ∧
    nextRunAt now ≤ u ∧
    nextRunAt (7 * usPerHour) = usPerDay + 6 * usPerHour := by
  refine ⟨?_, ?_, ?_, by decide⟩ <;>
    (unfold nextRunAt usPerDay usPerHour at *; split <;> omega)

/-- Witness for c1_should_notify_iff: the decision fires at the concrete
triple (5, 10, 8). -/
theorem c1_witness : should_notify 5 10 8 = true :=
  c1_should_notify_iff.2.1

/-- Witness for c9_next_run_is_first_six_am at now = 0 and u = 06:00 UTC of
day zero. -/
theorem c9_witness : nextRunAt 0 ≤ 6 * usPerHour :=
  (c9_next_run_is_first_six_am 0 (6 * usPerHour)
    (by unfold usPerDay usPerHour; decide) (by unfold usPerHour; decide)).2.2.1

/-! Timestamps.  scraper.py lines 196-205 and buywisely.py lines 151-158 parse
entry timestamps with datetime.strptime, trying the format
"%Y-%m-%dT%H:%M:%S.%fZ" when the string contains a dot and
"%Y-%m-%dT%H:%M:%SZ" otherwise, and skip the entry on ValueError. -/

/-- A parsed, validated timezone-aware UTC datetime. -/
structure PyDateTime where
  year : ℕ
  month : ℕ
  day : ℕ
  hour : ℕ
  minute : ℕ
  second : ℕ
  micro : ℕ
deriving DecidableEq

/-- Gregorian leap year. -/
def isLeap (y : ℕ) : Bool := (y % 4 = 0 && y % 100 ≠ 0) || y % 400 = 0

/-- Length of a month, as the datetime constructor validates it. -/
def daysInMonth (y m : ℕ) : ℕ :=
  if m = 2 then (if isLeap y then 29 else 28)
  else if m = 4 || m = 6 || m = 9 || m = 11 then 30
  else 31

/-- Range validation done by strptime and the datetime constructor. -/
def validDT (dt : PyDateTime) : Bool :=
  1 ≤ dt.year && dt.year ≤ 9999 && 1 ≤ dt.month && dt.month ≤ 12 &&
  1 ≤ dt.day && dt.day ≤ daysInMonth dt.year dt.month &&
  dt.hour ≤ 23 && dt.minute ≤ 59 && dt.second ≤ 59 && dt.micro ≤ 999999

/-- Days since 1970-01-01 of a civil date (standard days-from-civil algorithm). -/
def daysFromCivil (y m d : ℤ) : ℤ :=
  let y2 := if m ≤ 2 then y - 1 else y
  let era := (if 0 ≤ y2 then y2 else y2 - 399) / 400
  let yoe := y2 - era * 400
  let doy := (153 * (m + (if 2 < m then -3 else 9)) + 2) / 5 + d - 1
  let doe := yoe * 365 + yoe / 4 - yoe / 100 + doy
  era * 146097 + doe - 719468

/-- Microseconds since the epoch of a UTC datetime. -/
def tsMicros (dt : PyDateTime) : ℤ :=
  daysFromCivil dt.year dt.month dt.day * usPerDay + dt.hour * usPerHour +
    dt.minute * 60000000 + dt.second * 1000000 + dt.micro

/-- Numeric value of a decimal digit character. -/
def digitVal (c : Char) : ℕ := c.toNat - '0'.toNat

/-- Parse exactly n decimal digits, accumulating their value. -/
def parseDigitsAux : ℕ → ℕ → List Char → Option (ℕ × List Char)
  | 0, acc, rest => some (acc, rest)
  | Nat.succ n, acc, c :: rest =>
    if c.isDigit then parseDigitsAux n (acc * 10 + digitVal c) rest else none
  | Nat.succ _, _, [] => none

/-- Parse exactly n decimal digits. -/
def parseDigits (n : ℕ) (l : List Char) : Option (ℕ × List Char) :=
  parseDigitsAux n 0 l

/-- Parse a one-or-two-digit numeric field: strptime's %m, %d, %H, %M and %S
accept a single digit (leading zeros optional).  In the two formats at hand
each such field is followed by a non-digit literal, so CPython's regex
alternation with backtracking consumes exactly the run of digits at the
field, which is at most two when the string parses; value-range checks come
after, in validDT. -/
def parseUpTo2 : List Char → Option (ℕ × List Char)
  | [] => none
  | c :: rest =>
    if c.isDigit then
      match rest with
      | d :: rest2 =>
        if d.isDigit then some (digitVal c * 10 + digitVal d, rest2)
        else some (digitVal c, rest)
      | [] => some (digitVal c, [])
    else none

/-- Parse one expected literal character. -/
def parseCh (c : Char) : List Char → Option (List Char)
  | d :: rest => if d = c then some rest else none
  | [] => none

/-- Shared parse of the "%Y-%m-%dT%H:%M:%S" prefix of both strptime formats:
a four-digit year, one-or-two-digit remaining fields, and the combined range
validation of strptime's regular expression and the datetime constructor. -/
def parseCore (l : List Char) : Option (PyDateTime × List Char) :=
  (parseDigits 4 l).bind fun py =>
  (parseCh '-' py.2).bind fun r2 =>
  (parseUpTo2 r2).bind fun pmo =>
  (parseCh '-' pmo.2).bind fun r4 =>
  (parseUpTo2 r4).bind fun pd =>
  (parseCh 'T' pd.2).bind fun r6 =>
  (parseUpTo2 r6).bind fun ph =>
  (parseCh ':' ph.2).bind fun r8 =>
  (parseUpTo2 r8).bind fun pmi =>
  (parseCh ':' pmi.2).bind fun r10 =>
  (parseUpTo2 r10).bind fun ps =>
  let dt : PyDateTime := ⟨py.1, pmo.1, pd.1, ph.1, pmi.1, ps.1, 0⟩
  if validDT dt then some (dt, ps.2) else none

/-- strptime with format "%Y-%m-%dT%H:%M:%SZ"; the whole string must match. -/
def strptimeNoFrac (l : List Char) : Option PyDateTime :=
  (parseCore l).bind fun p =>
  (parseCh 'Z' p.2).bind fun r2 =>
  if r2 = [] then some p.1 else none

/-- Greedy scan of up to n fractional digits: value, digit count, rest. -/
def parseFracAux : ℕ → ℕ → ℕ → List Char → ℕ × ℕ × List Char
  | 0, acc, cnt, rest => (acc, cnt, rest)
  | Nat.succ n, acc, cnt, c :: rest =>
    if c.isDigit then parseFracAux n (acc * 10 + digitVal c) (cnt + 1) rest
    else (acc, cnt, c :: rest)
  | Nat.succ _, acc, cnt, [] => (acc, cnt, [])

/-- strptime %f: one to six fractional-second digits, padded to microseconds. -/
def parseFrac (l : List Char) : Option (ℕ × List Char) :=
  match parseFracAux 6 0 0 l with
  | (acc, cnt, rest) => if cnt = 0 then none else some (acc * 10 ^ (6 - cnt), rest)

/-- strptime with format "%Y-%m-%dT%H:%M:%S.%fZ"; the whole string must match. -/
def strptimeFrac (l : List Char) : Option PyDateTime :=
  (parseCore l).bind fun p =>
  (parseCh '.' p.2).bind fun r2 =>
  (parseFrac r2).bind fun pf =>
  (parseCh 'Z' pf.2).bind fun r4 =>
  if r4 = [] then some { p.1 with micro := pf.1 } else none

/-- Timestamp parsing dispatch of scraper.py lines 196-205: the fractional
format is tried when the string contains a dot, the plain format otherwise;
the caller catches ValueError, so failure is none. -/
def parsePyTimestamp (s : String) : Option PyDateTime :=
  if '.' ∈ s.data then strptimeFrac s.data else strptimeNoFrac s.data

/-- A raw price entry as consumed by the per-entry loops. -/
structure RawEntry where
  created_at : Option String
  timestamp : Option String
  base_price : Option ℚ
  price : Option ℚ
deriving DecidableEq

/-- entry.get('created_at', entry.get('timestamp', '')) of scraper.py line 191. -/
def tsStrOf (e : RawEntry) : String := e.created_at.getD (e.timestamp.getD "")

/-- entry.get('base_price', entry.get('price', 0)) of scraper.py line 219. -/
def priceOf (e : RawEntry) : ℚ := e.base_price.getD (e.price.getD 0)

/-- One iteration of the entry loop of scraper.py lines 184-229: the
(timestamp, price) record when the entry survives the missing-timestamp,
unparseable-timestamp, 30-day-cutoff and nonpositive-price filters, none
when the entry is skipped. -/
def keptRecord (now daysBack : ℤ) (e : RawEntry) : Option (ℤ × ℚ) :=
  if tsStrOf e = "" then none
  else
    match parsePyTimestamp (tsStrOf e) with
    | none => none
    | some dt =>
      if tsMicros dt < now - daysBack * usPerDay then none
      else if priceOf e ≤ 0 then none
      else some (tsMicros dt, priceOf e)

/-- The records of a retailer's entries that survive the filters. -/
def keptRecords (now daysBack : ℤ) (entries : List RawEntry) : List (ℤ × ℚ) :=
  entries.filterMap (keptRecord now daysBack)

/-- The retailer_prices list of scraper.py line 228. -/
def retailerPrices (now daysBack : ℤ) (entries : List RawEntry) : List ℚ :=
  (keptRecords now daysBack entries).map (fun r => r.2)

/-- The recent_prices list of scraper.py lines 231-233: kept prices observed
in the last seven days. -/
def recentPrices (now daysBack : ℤ) (entries : List RawEntry) : List ℚ :=
  ((keptRecords now daysBack entries).filter
    (fun r => decide (now - 7 * usPerDay ≤ r.1))).map (fun r => r.2)

/-- The fixed domain-to-name table of scraper.py lines 57-70. -/
def retailerMap : List (String × String) :=
  [("chemistwarehouse.com.au", "Chemist Warehouse"),
   ("priceline.com.au", "Priceline"),
   ("amazon.com.au", "Amazon AU"),
   ("ebay.com.au", "eBay"),
   ("woolworths.com.au", "Woolworths"),
   ("coles.com.au", "Coles"),
   ("bigw.com.au", "Big W"),
   ("kmart.com.au", "Kmart"),
   ("target.com.au", "Target"),
   ("pharmacy4less.com.au", "Pharmacy 4 Less"),
   ("mydeal.com.au", "MyDeal"),
   ("catch.com.au", "Catch")]

/-- A valid URL scheme character. -/
def isSchemeChar (c : Char) : Bool := c.isAlphanum || c = '+' || c = '-' || c = '.'

/-- The remainder of a URL after a valid "scheme:" prefix, or the URL itself. -/
def restAfterScheme (l : List Char) : List Char :=
  let pre := l.takeWhile (fun c => c != ':')
  match l.drop pre.length with
  | ':' :: rest =>
    match pre with
    | [] => l
    | c :: cs => if c.isAlpha && (c :: cs).all isSchemeChar then rest else l
  | _ => l

/-- urllib.parse.urlparse(url).netloc: present only when "//" follows the
optional scheme, and extending to the next '/', '?' or '#'. -/
def netlocOf (l : List Char) : List Char :=
  match restAfterScheme l with
  | '/' :: '/' :: rest => rest.takeWhile (fun c => c != '/' && c != '?' && c != '#')
  | _ => []

/-- str.replace("www.", ""): remove every occurrence, scanning left to right. -/
def removeWww : List Char → List Char
  | 'w' :: 'w' :: 'w' :: '.' :: rest => removeWww rest
  | c :: rest => c :: removeWww rest
  | [] => []

/-- str.title() restricted to the ASCII strings this code handles. -/
def pyTitleAux : Bool → List Char → List Char
  | _, [] => []
  | prevCased, c :: rest =>
    (if c.isAlpha then (if prevCased then c.toLower else c.toUpper) else c) ::
      pyTitleAux c.isAlpha rest

/-- str.title() restricted to ASCII. -/
def pyTitle (l : List Char) : List Char := pyTitleAux false l

/-- extract_retailer_name of scraper.py lines 55-82 (buywisely.py lines 90-113):
first matching entry of the fixed table, else the title-cased first DNS label
of the URL's netloc with "www." stripped. -/
def extract_retailer_name (url : String) : String :=
  match retailerMap.find? (fun p => inStr p.1 url) with
  | some p => p.2
  | none =>
    String.mk (pyTitle ((removeWww (netlocOf url.data)).takeWhile (fun c => c != '.')))

/-- The exclusion test of scraper.py line 175 and buywisely.py line 142:
any(excluded in retailer_url.lower() for excluded in excluded_retailers).
Only the retailer url is lowercased, not the exclusion entry. -/
def isExcluded (excluded : List String) (url : String) : Bool :=
  excluded.any (fun ex => inStr ex (pyLower url))

/-- Per-retailer value stored in retailer_current_prices
(scraper.py lines 246-250 and 303-307). -/
structure RetailerCurrent where
  price : ℚ
  url : String
  avg_price : ℚ
deriving DecidableEq

/-- One step of a Python loop that either assigns m[k] = v or leaves the dict
unchanged, with g deciding the assignment from the loop item. -/
def assignStep {α κ β : Type} [DecidableEq κ] (g : α → Option (κ × β))
    (acc : List (κ × β)) (x : α) : List (κ × β) :=
  match g x with
  | some kv => dictAssign acc kv.1 kv.2
  | none => acc

/-- What the main retailer loop of scraper.py lines 171-253 assigns into
retailer_current_prices for one retailer: nothing when the retailer is
excluded or has no recent price, otherwise the minimum recent price together
with the url and the average of all kept prices. -/
def scrapeCurrentG (excluded : List String) (now daysBack : ℤ)
    (kv : String × List RawEntry) : Option (String × RetailerCurrent) :=
  if isExcluded excluded kv.1 then none
  else
    let recent := recentPrices now daysBack kv.2
    let prices := retailerPrices now daysBack kv.2
    if recent.isEmpty then none
    else some (extract_retailer_name kv.1,
      ⟨pyMin recent, kv.1, if prices.isEmpty then 0 else pyMean prices⟩)

/-- retailer_current_prices after the main loop of scraper.py lines 171-253. -/
def scrapeCurrents (excluded : List String) (now daysBack : ℤ)
    (data : List (String × List RawEntry)) : List (String × RetailerCurrent) :=
  data.foldl (assignStep (scrapeCurrentG excluded now daysBack)) []

/-- historical_prices of scraper.py lines 166-229: every kept price of every
non-excluded retailer, pooled in iteration order. -/
def historicalPrices (excluded : List String) (now daysBack : ℤ) :
    List (String × List RawEntry) → List ℚ
  | [] => []
  | kv :: rest =>
    (if isExcluded excluded kv.1 then [] else retailerPrices now daysBack kv.2) ++
      historicalPrices excluded now daysBack rest

/-- The most-recent-entry scan of scraper.py lines 273-300: a later entry
replaces the running best only with a strictly greater timestamp. -/
def mostRecentKept (now daysBack : ℤ) (entries : List RawEntry) : Option (ℤ × ℚ) :=
  (keptRecords now daysBack entries).foldl
    (fun acc r =>
      match acc with
      | none => some r
      | some b => if b.1 < r.1 then some r else some b) none

/-- What the fallback loop of scraper.py lines 262-308 assigns for one
retailer. -/
def fallbackG (excluded : List String) (now daysBack : ℤ)
    (kv : String × List RawEntry) : Option (String × RetailerCurrent) :=
  if isExcluded excluded kv.1 then none
  else
    match mostRecentKept now daysBack kv.2 with
    | none => none
    | some r => some (extract_retailer_name kv.1, ⟨r.2, kv.1, r.2⟩)

/-- retailer_current_prices built by the fallback loop. -/
def fallbackCurrents (excluded : List String) (now daysBack : ℤ)
    (data : List (String × List RawEntry)) : List (String × RetailerCurrent) :=
  data.foldl (assignStep (fallbackG excluded now daysBack)) []

/-- retailer_current_prices after the fallback of scraper.py lines 262-308,
which runs only when the main loop produced no retailer at all. -/
def scrapeCurrentsFinal (excluded : List String) (now daysBack : ℤ)
    (data : List (String × List RawEntry)) : List (String × RetailerCurrent) :=
  let rcp := scrapeCurrents excluded now daysBack data
  if rcp.isEmpty then fallbackCurrents excluded now daysBack data else rcp

/-- The result dict of scrape_product_async (scraper.py lines 321-331). -/
structure ScrapeResult where
  price : ℚ
  retailer : String
  retailer_name : String
  average_price : ℚ
  total_prices_analyzed : ℕ
  retailers_analyzed : ℕ
  savings : ℚ
  savings_percentage : ℚ
deriving DecidableEq

/-- scrape_product_async after the payload has been parsed
(scraper.py lines 155-337). -/
def scrapeAnalyze (excluded : List String) (now daysBack : ℤ)
    (data : List (String × List RawEntry)) : Option ScrapeResult :=
  if data.isEmpty then none
  else
    let hist := historicalPrices excluded now daysBack data
    if hist.isEmpty then none
    else
      let rcp := scrapeCurrentsFinal excluded now daysBack data
      match pyMinBy (fun p => p.2.price) rcp with
      | none => none
      | some best =>
        let avg := pyMean hist
        some ⟨best.2.price, best.2.url, best.1, pyRound 2 avg, hist.length,
          rcp.length, pyRound 2 (avg - best.2.price),
          if 0 < avg then pyRound 1 ((avg - best.2.price) / avg * 100) else 0⟩

/-! The buywisely.py analysis pipeline (BuyWiselyDirectAPI.analyze_product,
lines 115-206), which differs from scraper.py in using or-chains for field
defaults, in keeping a per-retailer summary list instead of a dict, and in
having no fallback for retailers without recent prices. -/

/-- e.get('created_at') or e.get('timestamp') of buywisely.py line 148. -/
def bwTsStrOf (e : RawEntry) : String :=
  let s := e.created_at.getD ""
  if s = "" then e.timestamp.getD "" else s

/-- e.get('base_price') or e.get('price') or 0 of buywisely.py line 161. -/
def bwPriceOf (e : RawEntry) : ℚ :=
  let p := e.base_price.getD 0
  if p = 0 then e.price.getD 0 else p

/-- One iteration of the entry loop of buywisely.py lines 147-167. -/
def bwKeptRecord (now daysBack : ℤ) (e : RawEntry) : Option (ℤ × ℚ) :=
  if bwTsStrOf e = "" then none
  else
    match parsePyTimestamp (bwTsStrOf e) with
    | none => none
    | some dt =>
      if tsMicros dt < now - daysBack * usPerDay then none
      else if bwPriceOf e ≤ 0 then none
      else some (tsMicros dt, bwPriceOf e)

/-- The kept records of one retailer's entries in buywisely.py. -/
def bwKeptRecords (now daysBack : ℤ) (entries : List RawEntry) : List (ℤ × ℚ) :=
  entries.filterMap (bwKeptRecord now daysBack)

/-- The per-retailer prices list of buywisely.py line 164. -/
def bwRetailerPrices (now daysBack : ℤ) (entries : List RawEntry) : List ℚ :=
  (bwKeptRecords now daysBack entries).map (fun r => r.2)

/-- The per-retailer recent list of buywisely.py lines 166-167. -/
def bwRecentPrices (now daysBack : ℤ) (entries : List RawEntry) : List ℚ :=
  ((bwKeptRecords now daysBack entries).filter
    (fun r => decide (now - 7 * usPerDay ≤ r.1))).map (fun r => r.2)

/-- One element of retailers_summary (buywisely.py lines 169-178). -/
structure RetailerSummary where
  name : String
  url : String
  price : ℚ
  avg_price : ℚ
  price_count : ℕ
deriving DecidableEq

/-- What one retailer contributes to retailers_summary
(buywisely.py lines 137-178): nothing when excluded or without a recent
price, else one summary with the minimum recent price and the mean of all
kept prices. -/
def bwSummaryG (excluded : List String) (now daysBack : ℤ)
    (kv : String × List RawEntry) : List RetailerSummary :=
  if isExcluded excluded kv.1 then []
  else
    let prices := bwRetailerPrices now daysBack kv.2
    let recent := bwRecentPrices now daysBack kv.2
    if recent.isEmpty then []
    else [⟨extract_retailer_name kv.1, kv.1, pyMin recent,
           if prices.isEmpty then pyMin recent else pyMean prices,
           prices.length⟩]

/-- retailers_summary after the loop of buywisely.py lines 137-178: one
summary, in iteration order, for every non-excluded retailer with at least
one recent price. -/
def bwSummaries (excluded : List String) (now daysBack : ℤ) :
    List (String × List RawEntry) → List RetailerSummary
  | [] => []
  | kv :: rest =>
    bwSummaryG excluded now daysBack kv ++ bwSummaries excluded now daysBack rest

/-- What one retailer contributes to all_prices (buywisely.py lines 137-165). -/
def bwAllPricesG (excluded : List String) (now daysBack : ℤ)
    (kv : String × List RawEntry) : List ℚ :=
  if isExcluded excluded kv.1 then [] else bwRetailerPrices now daysBack kv.2

/-- all_prices of buywisely.py lines 134-165: every kept price of every
non-excluded retailer, pooled in iteration order. -/
def bwAllPrices (excluded : List String) (now daysBack : ℤ) :
    List (String × List RawEntry) → List ℚ
  | [] => []
  | kv :: rest =>
    bwAllPricesG excluded now daysBack kv ++ bwAllPrices excluded now daysBack rest

/-- retailers_summary.sort(key=lambda x: x["price"]) of buywisely.py line 184:
a stable ascending sort by price. -/
def sortByPrice (rs : List RetailerSummary) : List RetailerSummary :=
  rs.insertionSort (fun a b => a.price ≤ b.price)

/-- The result dict of analyze_product (buywisely.py lines 189-201). -/
structure BWResult where
  product_name : String
  best_price : ℚ
  best_retailer : String
  best_url : String
  average_price : ℚ
  savings : ℚ
  savings_pct : ℚ
  retailers_analyzed : ℕ
  total_prices : ℕ
  all_retailers : List RetailerSummary
deriving DecidableEq

/-- url.rstrip('/').split('/')[-1].replace('-', ' ').title() of
buywisely.py line 187. -/
def pyProductName (url : String) : String :=
  let stripped := url.data.reverse.dropWhile (fun c => c = '/')
  let seg := (stripped.takeWhile (fun c => c != '/')).reverse
  String.mk (pyTitle (seg.map (fun c => if c = '-' then ' ' else c)))

/-- Summary assembly of analyze_product (buywisely.py lines 180-201):
absent when all_prices or retailers_summary is empty, otherwise the sorted
summaries with the first as best and statistics over the pooled prices. -/
def bwSummarize (productName : String) (allPrices : List ℚ)
    (rs : List RetailerSummary) : Option BWResult :=
  if allPrices.isEmpty then none
  else
    match sortByPrice rs with
    | [] => none
    | best :: rest =>
      let avg := pyMean allPrices
      some ⟨productName, best.price, best.name, best.url, pyRound 2 avg,
        pyRound 2 (avg - best.price), pyRound 1 ((avg - best.price) / avg * 100),
        (best :: rest).length, allPrices.length, best :: rest⟩

/-- analyze_product after fetch and parse (buywisely.py lines 128-206). -/
def bwAnalyze (productUrl : String) (excluded : List String) (now daysBack : ℤ)
    (data : List (String × List RawEntry)) : Option BWResult :=
  if data.isEmpty then none
  else
    bwSummarize (pyProductName productUrl)
      (bwAllPrices excluded now daysBack data)
      (bwSummaries excluded now daysBack data)

/-! Raw payload normalization: parse_price_data of scraper.py lines 8-53.
The raw payload is arbitrary JSON-like data, modelled by PyVal. -/

/-- A JSON-like Python value as received from the upstream API. -/
inductive PyVal : Type where
  | pynull : PyVal
  | pybool : Bool → PyVal
  | pynum : ℚ → PyVal
  | pystr : String → PyVal
  | pylist : List PyVal → PyVal
  | pydict : List (String × PyVal) → PyVal

mutual

/-- Structural decidable equality for PyVal. -/
def pyValDecEq : (a b : PyVal) → Decidable (a = b)
  | .pynull, .pynull => isTrue rfl
  | .pynull, .pybool _ => isFalse (fun h => PyVal.noConfusion h)
  | .pynull, .pynum _ => isFalse (fun h => PyVal.noConfusion h)
  | .pynull, .pystr _ => isFalse (fun h => PyVal.noConfusion h)
  | .pynull, .pylist _ => isFalse (fun h => PyVal.noConfusion h)
  | .pynull, .pydict _ => isFalse (fun h => PyVal.noConfusion h)
  | .pybool _, .pynull => isFalse (fun h => PyVal.noConfusion h)
  | .pybool a, .pybool b =>
    if h : a = b then isTrue (by rw [h])
    else isFalse (fun he => by injection he with e; exact h e)
  | .pybool _, .pynum _ => isFalse (fun h => PyVal.noConfusion h)
  | .pybool _, .pystr _ => isFalse (fun h => PyVal.noConfusion h)
  | .pybool _, .pylist _ => isFalse (fun h => PyVal.noConfusion h)
  | .pybool _, .pydict _ => isFalse (fun h => PyVal.noConfusion h)
  | .pynum _, .pynull => isFalse (fun h => PyVal.noConfusion h)
  | .pynum _, .pybool _ => isFalse (fun h => PyVal.noConfusion h)
  | .pynum a, .pynum b =>
    if h : a = b then isTrue (by rw [h])
    else isFalse (fun he => by injection he with e; exact h e)
  | .pynum _, .pystr _ => isFalse (fun h => PyVal.noConfusion h)
  | .pynum _, .pylist _ => isFalse (fun h => PyVal.noConfusion h)
  | .pynum _, .pydict _ => isFalse (fun h => PyVal.noConfusion h)
  | .pystr _, .pynull => isFalse (fun h => PyVal.noConfusion h)
  | .pystr _, .pybool _ => isFalse (fun h => PyVal.noConfusion h)
  | .pystr _, .pynum _ => isFalse (fun h => PyVal.noConfusion h)
  | .pystr a, .pystr b =>
    if h : a = b then isTrue (by rw [h])
    else isFalse (fun he => by injection he with e; exact h e)
  | .pystr _, .pylist _ => isFalse (fun h => PyVal.noConfusion h)
  | .pystr _, .pydict _ => isFalse (fun h => PyVal.noConfusion h)
  | .pylist _, .pynull => isFalse (fun h => PyVal.noConfusion h)
  | .pylist _, .pybool _ => isFalse (fun h => PyVal.noConfusion h)
  | .pylist _, .pynum _ => isFalse (fun h => PyVal.noConfusion h)
  | .pylist _, .pystr _ => isFalse (fun h => PyVal.noConfusion h)
  | .pylist a, .pylist b =>
    match pyValListDecEq a b with
    | isTrue h => isTrue (by rw [h])
    | isFalse h => isFalse (fun he => by injection he with e; exact h e)
  | .pylist _, .pydict _ => isFalse (fun h => PyVal.noConfusion h)
  | .pydict _, .pynull => isFalse (fun h => PyVal.noConfusion h)
  | .pydict _, .pybool _ => isFalse (fun h => PyVal.noConfusion h)
  | .pydict _, .pynum _ => isFalse (fun h => PyVal.noConfusion h)
  | .pydict _, .pystr _ => isFalse (fun h => PyVal.noConfusion h)
  | .pydict _, .pylist _ => isFalse (fun h => PyVal.noConfusion h)
  | .pydict a, .pydict b =>
    match pyValDictDecEq a b with
    | isTrue h => isTrue (by rw [h])
    | isFalse h => isFalse (fun he => by injection he with e; exact h e)

/-- Decidable equality for lists of PyVal. -/
def pyValListDecEq : (a b : List PyVal) → Decidable (a = b)
  | [], [] => isTrue rfl
  | [], _ :: _ => isFalse (fun h => List.noConfusion h)
  | _ :: _, [] => isFalse (fun h => List.noConfusion h)
  | x :: xs, y :: ys =>
    match pyValDecEq x y with
    | isFalse h1 => isFalse (fun he => by injection he with e1 e2; exact h1 e1)
    | isTrue h1 =>
      match pyValListDecEq xs ys with
      | isTrue h2 => isTrue (by rw [h1, h2])
      | isFalse h2 => isFalse (fun he => by injection he with e1 e2; exact h2 e2)

/-- Decidable equality for string-keyed PyVal association lists. -/
def pyValDictDecEq : (a b : List (String × PyVal)) → Decidable (a = b)
  | [], [] => isTrue rfl
  | [], _ :: _ => isFalse (fun h => List.noConfusion h)
  | _ :: _, [] => isFalse (fun h => List.noConfusion h)
  | (k1, v1) :: xs, (k2, v2) :: ys =>
    if hk : k1 = k2 then
      match pyValDecEq v1 v2 with
      | isFalse h1 =>
        isFalse (fun he => by
          injection he with e1 e2
          injection e1 with ek ev
          exact h1 ev)
      | isTrue h1 =>
        match pyValDictDecEq xs ys with
        | isTrue h2 => isTrue (by rw [hk, h1, h2])
        | isFalse h2 => isFalse (fun he => by injection he with e1 e2; exact h2 e2)
    else
      isFalse (fun he => by
        injection he with e1 e2
        injection e1 with ek ev
        exact hk ek)

end

instance : DecidableEq PyVal := pyValDecEq

/-- item.get(k, dflt) on a dict item. -/
def pyGet (kvs : List (String × PyVal)) (k : String) (dflt : PyVal) : PyVal :=
  match kvs.find? (fun p => p.1 == k) with
  | some p => p.2
  | none => dflt

/-- k in item. -/
def hasKey (kvs : List (String × PyVal)) (k : String) : Bool :=
  (kvs.find? (fun p => p.1 == k)).isSome

/-- item.get('url', item.get('retailer', 'unknown')) of scraper.py line 32. -/
def itemKey (kvs : List (String × PyVal)) : PyVal :=
  pyGet kvs "url" (pyGet kvs "retailer" (PyVal.pystr "unknown"))

/-- The wrapped single price entry of scraper.py lines 39-42;
datetime.now(timezone.utc).isoformat() is the nowIso parameter. -/
def singleEntry (nowIso : String) (kvs : List (String × PyVal)) : List PyVal :=
  [PyVal.pydict
    [("base_price", pyGet kvs "price" (pyGet kvs "base_price" (PyVal.pynum 0))),
     ("created_at", pyGet kvs "created_at" (pyGet kvs "timestamp" (PyVal.pystr nowIso)))]]

/-- What a list item contributes (scraper.py lines 33-43): its nonempty
prices/price_history list, else a wrapped single entry when a price field is
present, else nothing. -/
def itemEntries (nowIso : String) (kvs : List (String × PyVal)) : Option (List PyVal) :=
  match pyGet kvs "prices" (pyGet kvs "price_history" (PyVal.pylist [])) with
  | PyVal.pylist (p :: ps) => some (p :: ps)
  | _ =>
    if hasKey kvs "price" || hasKey kvs "base_price" then
      some (singleEntry nowIso kvs)
    else none

/-- The assignment decision of the dict branch (scraper.py lines 16-24):
keep list-valued entries, skip the rest. -/
def dictItemG (kv : String × PyVal) : Option (PyVal × List PyVal) :=
  match kv.2 with
  | PyVal.pylist es => some (PyVal.pystr kv.1, es)
  | _ => none

/-- The assignment decision of the list branch (scraper.py lines 26-44). -/
def listItemG (nowIso : String) (x : PyVal) : Option (PyVal × List PyVal) :=
  match x with
  | PyVal.pydict kvs =>
    match itemEntries nowIso kvs with
    | some es => some (itemKey kvs, es)
    | none => none
  | _ => none

/-- parse_price_data of scraper.py lines 8-53.  The try/except wrapper means
the function never raises; this embedding is a total function.  An
unrecognized top-level shape yields the empty mapping. -/
def parse_price_data (nowIso : String) : PyVal → List (PyVal × List PyVal)
  | PyVal.pydict kvs => kvs.foldl (assignStep dictItemG) []
  | PyVal.pylist xs => xs.foldl (assignStep (listItemG nowIso)) []
  | _ => []

/-! The scheduler's discount rederivation (_refresh_product_price,
scheduler.py lines 102-167). -/

/-- The prior persisted ProductDetails row, as read by the scheduler: its
stored best_price and average_price columns, each of which may be NULL. -/
structure PriorProduct where
  best_price : Option ℚ
  average_price : Option ℚ
deriving DecidableEq

/-- Python truthiness of an optional float. -/
def optTruthy (x : Option ℚ) : Bool :=
  match x with
  | none => false
  | some v => decide (v ≠ 0)

/-- previous_discount_percent of scheduler.py lines 106-129: 0 unless a prior
product row exists and both stored prices are truthy, in which case
(prev_avg - prev_best) / prev_avg * 100. -/
def previousDiscountPercent (product : Option PriorProduct) : ℚ :=
  match product with
  | none => 0
  | some p =>
    if optTruthy p.average_price && optTruthy p.best_price then
      (p.average_price.getD 0 - p.best_price.getD 0) / p.average_price.getD 0 * 100
    else 0

/-- new_discount_percent of scheduler.py lines 131-132. -/
def newDiscountPercent (newBest newAvg : ℚ) : ℚ :=
  if newAvg ≠ 0 ∧ newBest ≠ 0 then (newAvg - newBest) / newAvg * 100 else 0

/-! Generic lemmas about dict assignment, loop folds, minima and the
most-recent scan. -/

theorem lookupA_dictAssign_self {κ β : Type} [DecidableEq κ]
    (m : List (κ × β)) (k : κ) (v : β) :
    lookupA (dictAssign m k v) k = some v := by
  induction m with
  | nil => simp [dictAssign, lookupA]
  | cons p rest ih =>
    by_cases hp : p.1 = k
    · simp [dictAssign, lookupA, hp]
    · simp [dictAssign, lookupA, hp, ih]

theorem lookupA_dictAssign_ne {κ β : Type} [DecidableEq κ]
    (m : List (κ × β)) (k k' : κ) (v : β) (h : k' ≠ k) :
    lookupA (dictAssign m k' v) k = lookupA m k := by
  induction m with
  | nil => simp [dictAssign, lookupA, h]
  | cons p rest ih =>
    by_cases hp : p.1 = k'
    · simp [dictAssign, lookupA, hp, h]
    · simp [dictAssign, lookupA, hp, ih]

theorem mem_dictAssign {κ β : Type} [DecidableEq κ]
    (m : List (κ × β)) (k : κ) (v : β) (p : κ × β)
    (h : p ∈ dictAssign m k v) : p ∈ m ∨ p = (k, v) := by
  induction m with
  | nil => simp [dictAssign] at h; simp [h]
  | cons q rest ih =>
    by_cases hq : q.1 = k
    · rw [dictAssign, if_pos hq] at h
      rcases List.mem_cons.mp h with h' | h'
      · right; exact h'
      · left; exact List.mem_cons_of_mem _ h'
    · rw [dictAssign, if_neg hq] at h
      rcases List.mem_cons.mp h with h' | h'
      · left; exact h' ▸ List.mem_cons_self _ _
      · rcases ih h' with h'' | h''
        · left; exact List.mem_cons_of_mem _ h''
        · right; exact h''

theorem foldl_assignStep_lookup_none {α κ β : Type} [DecidableEq κ]
    (g : α → Option (κ × β)) (k : κ) :
    ∀ (xs : List α) (acc : List (κ × β)),
      (∀ x ∈ xs, ∀ v, g x ≠ some (k, v)) →
      lookupA (xs.foldl (assignStep g) acc) k = lookupA acc k := by
  intro xs
  induction xs with
  | nil => intro acc _; rfl
  | cons x rest ih =>
    intro acc h
    rw [List.foldl_cons,
      ih (assignStep g acc x) (fun y hy v => h y (List.mem_cons_of_mem _ hy) v)]
    cases hg : g x with
    | none => simp [assignStep, hg]
    | some kv =>
      have hne : kv.1 ≠ k := by
        intro he
        exact h x (List.mem_cons_self _ _) kv.2 (by rw [hg, ← he])
      simp [assignStep, hg, lookupA_dictAssign_ne _ _ _ _ hne]

theorem foldl_assignStep_lookup_last {α κ β : Type} [DecidableEq κ]
    (g : α → Option (κ × β)) (k : κ) (v : β) (x : α)
    (xs ys : List α) (acc : List (κ × β))
    (hx : g x = some (k, v)) (hy : ∀ y ∈ ys, ∀ w, g y ≠ some (k, w)) :
    lookupA ((xs ++ x :: ys).foldl (assignStep g) acc) k = some v := by
  rw [List.foldl_append, List.foldl_cons,
    foldl_assignStep_lookup_none g k ys _ hy]
  simp [assignStep, hx, lookupA_dictAssign_self]

theorem foldl_assignStep_forall {α κ β : Type} [DecidableEq κ]
    (g : α → Option (κ × β)) (P : κ × β → Prop) :
    ∀ (xs : List α) (acc : List (κ × β)),
      (∀ p ∈ acc, P p) → (∀ x ∈ xs, ∀ kv, g x = some kv → P kv) →
      ∀ p ∈ xs.foldl (assignStep g) acc, P p := by
  intro xs
  induction xs with
  | nil => intro acc hacc _ p hp; exact hacc p hp
  | cons x rest ih =>
    intro acc hacc hg p hp
    refine ih (assignStep g acc x) ?_
      (fun y hy kv h => hg y (List.mem_cons_of_mem _ hy) kv h) p hp
    intro q hq
    cases hgx : g x with
    | none => exact hacc q (by simpa [assignStep, hgx] using hq)
    | some kv =>
      rcases mem_dictAssign acc kv.1 kv.2 q
          (by simpa [assignStep, hgx] using hq) with h' | h'
      · exact hacc q h'
      · rw [h']
        exact hg x (List.mem_cons_self _ _) kv hgx

theorem foldl_min_le_init (xs : List ℚ) : ∀ a : ℚ, xs.foldl min a ≤ a := by
  induction xs with
  | nil => intro a; exact le_refl a
  | cons x rest ih =>
    intro a
    exact le_trans (ih (min a x)) (min_le_left a x)

theorem foldl_min_le_mem (xs : List ℚ) :
    ∀ (a x : ℚ), x ∈ xs → xs.foldl min a ≤ x := by
  induction xs with
  | nil => intro a x hx; exact absurd hx (List.not_mem_nil x)
  | cons y rest ih =>
    intro a x hx
    rcases List.mem_cons.mp hx with rfl | hx
    · exact le_trans (foldl_min_le_init rest (min a x)) (min_le_right a x)
    · exact ih (min a y) x hx

theorem foldl_min_mem (xs : List ℚ) :
    ∀ a : ℚ, xs.foldl min a = a ∨ xs.foldl min a ∈ xs := by
  induction xs with
  | nil => intro a; exact Or.inl rfl
  | cons x rest ih =>
    intro a
    rcases ih (min a x) with h | h
    · rcases min_cases a x with ⟨he, -⟩ | ⟨he, -⟩
      · exact Or.inl (by rw [List.foldl_cons, h, he])
      · exact Or.inr (by rw [List.foldl_cons, h, he]; exact List.mem_cons_self _ _)
    · exact Or.inr (List.mem_cons_of_mem _ h)

/-- pyMin of a nonempty list is a member. -/
theorem pyMin_mem (l : List ℚ) (h : l ≠ []) : pyMin l ∈ l := by
  cases l with
  | nil => exact absurd rfl h
  | cons x xs =>
    rcases foldl_min_mem xs x with h' | h'
    · rw [pyMin, h']; exact List.mem_cons_self _ _
    · rw [pyMin]; exact List.mem_cons_of_mem _ h'

/-- pyMin of a nonempty list is a lower bound. -/
theorem pyMin_le (l : List ℚ) (x : ℚ) (hx : x ∈ l) : pyMin l ≤ x := by
  cases l with
  | nil => exact absurd hx (List.not_mem_nil x)
  | cons y ys =>
    rcases List.mem_cons.mp hx with rfl | hx
    · exact foldl_min_le_init ys x
    · exact foldl_min_le_mem ys y x hx

/-- The step function of the most-recent scan. -/
def mrStep (acc : Option (ℤ × ℚ)) (r : ℤ × ℚ) : Option (ℤ × ℚ) :=
  match acc with
  | none => some r
  | some b => if b.1 < r.1 then some r else some b

theorem mostRecentKept_eq_foldl (now daysBack : ℤ) (entries : List RawEntry) :
    mostRecentKept now daysBack entries =
      (keptRecords now daysBack entries).foldl mrStep none := by
  rfl

theorem foldl_mrStep_some (l : List (ℤ × ℚ)) :
    ∀ (b r : ℤ × ℚ), l.foldl mrStep (some b) = some r →
      (∀ s ∈ l, s.1 ≤ r.1) ∧ b.1 ≤ r.1 ∧
      (r = b ∨ (b.1 < r.1 ∧ l.find? (fun s => decide (r.1 ≤ s.1)) = some r)) := by
  induction l with
  | nil =>
    intro b r h
    obtain rfl : b = r := by simpa using h
    exact ⟨by simp, le_refl _, Or.inl rfl⟩
  | cons t ts ih =>
    intro b r h
    rw [List.foldl_cons] at h
    by_cases hbt : b.1 < t.1
    · rw [show mrStep (some b) t = some t by simp [mrStep, hbt]] at h
      obtain ⟨hall, htr, hcase⟩ := ih t r h
      refine ⟨?_, le_of_lt (lt_of_lt_of_le hbt htr), Or.inr ⟨lt_of_lt_of_le hbt htr, ?_⟩⟩
      · intro s hs
        rcases List.mem_cons.mp hs with rfl | hs
        · exact htr
        · exact hall s hs
      · rcases hcase with rfl | ⟨htlt, hfind⟩
        · rw [List.find?_cons_of_pos _ (by simp)]
        · rw [List.find?_cons_of_neg _ (by simp [not_le.mpr htlt]), hfind]
    · rw [show mrStep (some b) t = some b by simp [mrStep, hbt]] at h
      obtain ⟨hall, hbr, hcase⟩ := ih b r h
      have htb : t.1 ≤ b.1 := not_lt.mp hbt
      refine ⟨?_, hbr, ?_⟩
      · intro s hs
        rcases List.mem_cons.mp hs with rfl | hs
        · exact le_trans htb hbr
        · exact hall s hs
      · rcases hcase with rfl | ⟨hblt, hfind⟩
        · exact Or.inl rfl
        · refine Or.inr ⟨hblt, ?_⟩
          rw [List.find?_cons_of_neg _ (by simp [not_le.mpr (lt_of_le_of_lt htb hblt)]),
            hfind]

/-- The most-recent scan returns the maximal timestamp and, on ties, the
first record attaining it. -/
theorem foldl_mrStep_none (l : List (ℤ × ℚ)) (r : ℤ × ℚ)
    (h : l.foldl mrStep none = some r) :
    (∀ s ∈ l, s.1 ≤ r.1) ∧ l.find? (fun s => decide (r.1 ≤ s.1)) = some r := by
  cases l with
  | nil => simp at h
  | cons t ts =>
    rw [List.foldl_cons, show mrStep none t = some t from rfl] at h
    obtain ⟨hall, htr, hcase⟩ := foldl_mrStep_some ts t r h
    constructor
    · intro s hs
      rcases List.mem_cons.mp hs with rfl | hs
      · exact htr
      · exact hall s hs
    · rcases hcase with rfl | ⟨htlt, hfind⟩
      · rw [List.find?_cons_of_pos _ (by simp)]
      · rw [List.find?_cons_of_neg _ (by simp [not_le.mpr htlt]), hfind]

/-! Claims C6, C7 and C10: normalization. -/

/-- C10: a list item lacking both the url and the retailer field is keyed by
the literal "unknown"; and when an item contributes entries for a key and no
later item contributes entries for the same key, the normalized mapping holds
exactly that item's entries, whatever earlier items contributed. -/
theorem c10_unknown_key_and_replacement :
    (∀ kvs : List (String × PyVal), hasKey kvs "url" = false →
      hasKey kvs "retailer" = false → itemKey kvs = PyVal.pystr "unknown") ∧
    (∀ (nowIso : String) (xs ys : List PyVal) (kvs : List (String × PyVal))
       (es : List PyVal), itemEntries nowIso kvs = some es →
      (∀ y ∈ ys, ∀ w, listItemG nowIso y ≠ some (itemKey kvs, w)) →
      lookupA
        (parse_price_data nowIso (PyVal.pylist (xs ++ PyVal.pydict kvs :: ys)))
        (itemKey kvs) = some es) := by
  constructor
  · intro kvs h1 h2
    cases hf1 : kvs.find? (fun p => p.1 == "url") with
    | some p => rw [hasKey, hf1] at h1; simp at h1
    | none =>
      cases hf2 : kvs.find? (fun p => p.1 == "retailer") with
      | some p => rw [hasKey, hf2] at h2; simp at h2
      | none => simp [itemKey, pyGet, hf1, hf2]
  · intro nowIso xs ys kvs es he hy
    unfold parse_price_data
    exact foldl_assignStep_lookup_last (listItemG nowIso) (itemKey kvs) es
      (PyVal.pydict kvs) xs ys [] (by simp [listItemG, he]) hy

/-- Witness for c10_unknown_key_and_replacement: two items with the same url
key; the mapping holds the second item's entries. -/
theorem c10_witness :
    lookupA
      (parse_price_data "now" (PyVal.pylist
        [PyVal.pydict [("url", PyVal.pystr "a"),
                       ("prices", PyVal.pylist [PyVal.pynum 1])],
         PyVal.pydict [("url", PyVal.pystr "a"),
                       ("prices", PyVal.pylist [PyVal.pynum 2])]]))
      (itemKey [("url", PyVal.pystr "a"), ("prices", PyVal.pylist [PyVal.pynum 2])]) =
      some [PyVal.pynum 2] :=
  c10_unknown_key_and_replacement.2 "now"
    [PyVal.pydict [("url", PyVal.pystr "a"),
                   ("prices", PyVal.pylist [PyVal.pynum 1])]]
    [] [("url", PyVal.pystr "a"), ("prices", PyVal.pylist [PyVal.pynum 2])]
    [PyVal.pynum 2] rfl (by simp)

/-! Concrete fixture data shared by the evaluation theorems: a fixed now of
2024-01-20 00:00:00 UTC, so the 7-day recency window opens at 2024-01-13 and
the 30-day retention window at 2023-12-21. -/

/-- The frozen evaluation instant, 2024-01-20 00:00:00 UTC. -/
def exNow : ℤ := tsMicros ⟨2024, 1, 20, 0, 0, 0, 0⟩

/-- An eBay product URL. -/
def exEbayUrl : String := "https://www.ebay.com.au/itm/1"

/-- An Amazon product URL. -/
def exAmazonUrl : String := "https://www.amazon.com.au/dp/1"

/-- A one-day-old entry at price 38. -/
def exEntryRecent : RawEntry := ⟨some "2024-01-19T00:00:00Z", none, some 38, none⟩

/-- A ten-day-old entry at price 40: retained but not recent. -/
def exEntryStale : RawEntry := ⟨some "2024-01-10T00:00:00Z", none, some 40, none⟩

/-- A ten-day-old entry at price 10. -/
def exStaleTie1 : RawEntry := ⟨some "2024-01-10T12:00:00Z", none, some 10, none⟩

/-- A ten-day-old entry at price 5 with the same timestamp as exStaleTie1. -/
def exStaleTie2 : RawEntry := ⟨some "2024-01-10T12:00:00Z", none, some 5, none⟩

/-! Claim C3: retailer exclusion. -/

instance : IsTotal RetailerSummary (fun a b => a.price ≤ b.price) :=
  ⟨fun a b => le_total a.price b.price⟩

instance : IsTrans RetailerSummary (fun a b => a.price ≤ b.price) :=
  ⟨fun _ _ _ hab hbc => le_trans hab hbc⟩

/-- A produced summary holds the sorted retailers_summary list. -/
theorem bwSummarize_all_retailers (name : String) (ap : List ℚ)
    (rs : List RetailerSummary) (r : BWResult)
    (h : bwSummarize name ap rs = some r) : r.all_retailers = sortByPrice rs := by
  unfold bwSummarize at h
  split at h
  case isTrue => exact absurd h (by simp)
  case isFalse =>
  cases hs : sortByPrice rs with
  | nil => rw [hs] at h; exact absurd h (by simp)
  | cons best rest =>
    rw [hs] at h
    cases h
    rfl

/-- C3 counterexample: the exclusion entry "EBAY" matches the retailer key
case-insensitively as a substring, yet the retailer's aggregate appears in
the output of both pipelines. -/
theorem c3_counterexample :
    inStr (pyLower "EBAY") (pyLower exEbayUrl) = true ∧
    (bwSummaries ["EBAY"] exNow 30 [(exEbayUrl, [exEntryRecent])]).map
      (fun s => s.url) = [exEbayUrl] ∧
    (scrapeCurrents ["EBAY"] exNow 30 [(exEbayUrl, [exEntryRecent])]).map
      (fun c => c.2.url) = [exEbayUrl] := by
  refine ⟨by decide, by decide, by decide⟩

/-- C3 amended: the exclusion entry is compared verbatim against the
lowercased retailer key (case-insensitive in the key, case-sensitive in the
entry); when an exclusion entry is contained in the lowercased key, the
retailer contributes no aggregate to either pipeline's output, regardless of
how many records it has. -/
theorem c3_amended_exclusion (excluded : List String) (ex url productUrl : String)
    (now daysBack : ℤ) (data : List (String × List RawEntry))
    (hmem : ex ∈ excluded) (hsub : inStr ex (pyLower url) = true) :
    ((bwSummaries excluded now daysBack data).all (fun s => s.url != url) = true) ∧
    ((scrapeCurrentsFinal excluded now daysBack data).all
      (fun c => c.2.url != url) = true) ∧
    (∀ r, bwAnalyze productUrl excluded now daysBack data = some r →
      r.all_retailers.all (fun s => s.url != url) = true) := by
  have hexcl : isExcluded excluded url = true := by
    unfold isExcluded
    rw [List.any_eq_true]
    exact ⟨ex, hmem, hsub⟩
  have hbw : ∀ d : List (String × List RawEntry),
      (bwSummaries excluded now daysBack d).all (fun s => s.url != url) = true := by
    intro d
    rw [List.all_eq_true]
    induction d with
    | nil => intro s hs; exact absurd hs (by simp [bwSummaries])
    | cons kv rest ih =>
      intro s hs
      rw [bwSummaries] at hs
      rcases List.mem_append.mp hs with h | h
      · by_cases hk : isExcluded excluded kv.1
        · rw [bwSummaryG, if_pos hk] at h
          exact absurd h (List.not_mem_nil s)
        · have hne : kv.1 ≠ url := fun he => hk (he ▸ hexcl)
          rw [bwSummaryG, if_neg hk] at h
          by_cases hr : (bwRecentPrices now daysBack kv.2).isEmpty
          · simp only [hr, if_true] at h
            exact absurd h (List.not_mem_nil s)
          · simp only [hr, if_false] at h
            rcases List.mem_singleton.mp h with rfl
            simpa using hne
      · exact ih s h
  refine ⟨hbw data, ?_, ?_⟩
  · rw [List.all_eq_true]
    have hval : ∀ (g : String × List RawEntry → Option (String × RetailerCurrent)),
        (∀ kv kvv, g kv = some kvv → kvv.2.url = kv.1 ∧
          isExcluded excluded kv.1 = false) →
        ∀ p ∈ data.foldl (assignStep g) ([] : List (String × RetailerCurrent)),
          (p.2.url != url) = true := by
      intro g hg
      refine foldl_assignStep_forall g (fun p => (p.2.url != url) = true) data []
        (by simp) ?_
      intro x _ kv hkv
      obtain ⟨hu, hx⟩ := hg x kv hkv
      have : x.1 ≠ url := fun he => by rw [he] at hx; rw [hexcl] at hx; simp at hx
      rw [hu]
      simpa using this
    simp only [scrapeCurrentsFinal]
    by_cases hemp : (scrapeCurrents excluded now daysBack data).isEmpty = true
    · rw [if_pos hemp]
      exact hval (fallbackG excluded now daysBack) (by
        intro kv kvv hkv
        unfold fallbackG at hkv
        by_cases hk : isExcluded excluded kv.1
        · rw [if_pos hk] at hkv; exact absurd hkv (by simp)
        · rw [if_neg hk] at hkv
          cases hm : mostRecentKept now daysBack kv.2 with
          | none => rw [hm] at hkv; exact absurd hkv (by simp)
          | some rr =>
            rw [hm] at hkv
            cases hkv
            exact ⟨rfl, by simpa using hk⟩)
    · rw [if_neg hemp]
      exact hval (scrapeCurrentG excluded now daysBack) (by
        intro kv kvv hkv
        unfold scrapeCurrentG at hkv
        by_cases hk : isExcluded excluded kv.1
        · rw [if_pos hk] at hkv; exact absurd hkv (by simp)
        · rw [if_neg hk] at hkv
          by_cases hr : (recentPrices now daysBack kv.2).isEmpty
          · simp only [hr, if_true] at hkv
            exact absurd hkv (by simp)
          · simp only [hr, if_false] at hkv
            cases hkv
            exact ⟨rfl, by simpa using hk⟩)
  · intro r hr
    unfold bwAnalyze at hr
    split at hr
    case isTrue => exact absurd hr (by simp)
    case isFalse =>
    have hall := bwSummarize_all_retailers _ _ _ _ hr
    rw [List.all_eq_true]
    intro s hs
    rw [hall] at hs
    have hmem2 : s ∈ bwSummaries excluded now daysBack data :=
      (List.perm_insertionSort _ _).mem_iff.mp hs
    exact List.all_eq_true.mp (hbw data) s hmem2

/-- Witness for c3_amended_exclusion: "ebay" excludes the eBay retailer. -/
theorem c3_amended_witness :
    (bwSummaries ["ebay"] exNow 30 [(exEbayUrl, [exEntryRecent])]).all
      (fun s => s.url != exEbayUrl) = true :=
  (c3_amended_exclusion ["ebay"] "ebay" exEbayUrl "p" exNow 30
    [(exEbayUrl, [exEntryRecent])] (by simp) (by decide)).1

/-! Claim C2: the per-retailer current price. -/

/-- C2 counterexample.  First scenario: eBay has a one-day-old record while
Amazon has only a ten-day-old (retained, not recent) record; the claim says
Amazon's aggregate falls back to its most recent record at price 40, but the
code produces no Amazon aggregate at all because the fallback only runs when
no retailer has a recent price.  Second scenario: a single retailer whose two
retained records share one timestamp at prices 10 then 5; the claim's
tie-break picks the lower price 5, but the code keeps the first-listed record
at price 10. -/
theorem c2_counterexample :
    keptRecords exNow 30 [exEntryStale] ≠ [] ∧
    recentPrices exNow 30 [exEntryStale] = [] ∧
    lookupA (scrapeCurrentsFinal [] exNow 30
      [(exEbayUrl, [exEntryRecent]), (exAmazonUrl, [exEntryStale])])
      "Amazon AU" = none ∧
    (keptRecords exNow 30 [exStaleTie1, exStaleTie2]).map (fun r => r.1) =
      [tsMicros ⟨2024, 1, 10, 12, 0, 0, 0⟩, tsMicros ⟨2024, 1, 10, 12, 0, 0, 0⟩] ∧
    (lookupA (scrapeCurrentsFinal [] exNow 30
      [(exEbayUrl, [exStaleTie1, exStaleTie2])]) "eBay").map (fun c => c.price) =
      some 10 ∧
    (10 : ℚ) ≠ 5 := by
  refine ⟨by decide, by decide, by decide, by decide, by decide, by decide⟩

/-- C2 amended: for a non-excluded retailer whose recent list is nonempty,
the aggregate's current price is the minimum of its recency-window prices;
when no retailer at all produced a recent price, the fallback gives each
non-excluded retailer with retained records the price of its most recent
retained record, where a record wins a timestamp tie only against strictly
older records, so the first-listed record with the maximal timestamp is
chosen.  The aggregate map is keyed by display name; the hypotheses say no
later retailer assigns the same name. -/
theorem c2_amended_current_price (excluded : List String) (now daysBack : ℤ)
    (xs ys : List (String × List RawEntry)) (url : String)
    (entries : List RawEntry)
    (h1 : isExcluded excluded url = false)
    (h2 : ∀ y ∈ ys, ∀ v, scrapeCurrentG excluded now daysBack y ≠
      some (extract_retailer_name url, v)) :
    ((recentPrices now daysBack entries).isEmpty = false →
      lookupA (scrapeCurrentsFinal excluded now daysBack
          (xs ++ (url, entries) :: ys)) (extract_retailer_name url) =
        some ⟨pyMin (recentPrices now daysBack entries), url,
          if (retailerPrices now daysBack entries).isEmpty then 0
          else pyMean (retailerPrices now daysBack entries)⟩ ∧
      pyMin (recentPrices now daysBack entries) ∈ recentPrices now daysBack entries ∧
      ∀ p ∈ recentPrices now daysBack entries,
        pyMin (recentPrices now daysBack entries) ≤ p) ∧
    (∀ t : ℤ, ∀ p : ℚ,
      scrapeCurrents excluded now daysBack (xs ++ (url, entries) :: ys) = [] →
      mostRecentKept now daysBack entries = some (t, p) →
      (∀ y ∈ ys, ∀ v, fallbackG excluded now daysBack y ≠
        some (extract_retailer_name url, v)) →
      lookupA (scrapeCurrentsFinal excluded now daysBack
          (xs ++ (url, entries) :: ys)) (extract_retailer_name url) =
        some ⟨p, url, p⟩ ∧
      (∀ s ∈ keptRecords now daysBack entries, s.1 ≤ t) ∧
      (keptRecords now daysBack entries).find? (fun s => decide (t ≤ s.1)) =
        some (t, p)) := by
  constructor
  · intro hr
    have hg : scrapeCurrentG excluded now daysBack (url, entries) =
        some (extract_retailer_name url,
          ⟨pyMin (recentPrices now daysBack entries), url,
           if (retailerPrices now daysBack entries).isEmpty then 0
           else pyMean (retailerPrices now daysBack entries)⟩) := by
      unfold scrapeCurrentG
      rw [if_neg (by simp [h1])]
      simp [hr]
    have hlook := foldl_assignStep_lookup_last
      (scrapeCurrentG excluded now daysBack) (extract_retailer_name url) _
      (url, entries) xs ys [] hg h2
    have hne : (scrapeCurrents excluded now daysBack
        (xs ++ (url, entries) :: ys)).isEmpty = false := by
      cases hc : scrapeCurrents excluded now daysBack (xs ++ (url, entries) :: ys) with
      | nil =>
        exfalso
        have hc' : List.foldl (assignStep (scrapeCurrentG excluded now daysBack)) []
            (xs ++ (url, entries) :: ys) = [] := hc
        rw [hc'] at hlook
        simp [lookupA] at hlook
      | cons a l => rfl
    have hrecne : recentPrices now daysBack entries ≠ [] := by
      intro he
      rw [he] at hr
      simp at hr
    refine ⟨?_, pyMin_mem _ hrecne, fun p hp => pyMin_le _ p hp⟩
    simp only [scrapeCurrentsFinal, hne, if_false]
    exact hlook
  · intro t p hc hm h2f
    have hg : fallbackG excluded now daysBack (url, entries) =
        some (extract_retailer_name url, ⟨p, url, p⟩) := by
      unfold fallbackG
      rw [if_neg (by simp [h1]), hm]
    have hlook := foldl_assignStep_lookup_last
      (fallbackG excluded now daysBack) (extract_retailer_name url) _
      (url, entries) xs ys [] hg h2f
    rw [mostRecentKept_eq_foldl] at hm
    obtain ⟨hall, hfind⟩ := foldl_mrStep_none _ _ hm
    refine ⟨?_, hall, hfind⟩
    simp only [scrapeCurrentsFinal, hc, List.isEmpty_nil, if_true]
    exact hlook

/-- Witness for c2_amended_current_price: one retailer with one recent record
at price 38. -/
theorem c2_amended_witness :
    lookupA (scrapeCurrentsFinal [] exNow 30 [(exEbayUrl, [exEntryRecent])])
      (extract_retailer_name exEbayUrl) =
      some ⟨pyMin (recentPrices exNow 30 [exEntryRecent]), exEbayUrl,
        if (retailerPrices exNow 30 [exEntryRecent]).isEmpty then 0
        else pyMean (retailerPrices exNow 30 [exEntryRecent])⟩ :=
  ((c2_amended_current_price [] exNow 30 [] [] exEbayUrl [exEntryRecent]
    (by decide) (by simp)).1 (by decide)).1

/-! Claim C4: the product summary. -/

/-- C4: summarizing an empty aggregate list yields absent rather than an
error; for a nonempty aggregate list (with a nonempty pooled price list, an
invariant of the pipeline stated as the third conjunct) a summary is
returned whose retailers are a permutation of the aggregates sorted ascending
by current price, whose first retailer is the best, and whose best_price is
the minimum of the aggregates' current prices. -/
theorem c4_summarize_properties :
    (∀ (name : String) (ap : List ℚ), bwSummarize name ap [] = none) ∧
    (∀ (name : String) (ap : List ℚ) (rs : List RetailerSummary),
      ap ≠ [] → rs ≠ [] →
      ∃ r, bwSummarize name ap rs = some r ∧
        r.all_retailers.Perm rs ∧
        List.Sorted (fun a b : RetailerSummary => a.price ≤ b.price)
          r.all_retailers ∧
        (∃ b rest, r.all_retailers = b :: rest ∧ b.price = r.best_price ∧
          b.name = r.best_retailer ∧ b.url = r.best_url) ∧
        r.best_price ∈ rs.map (fun s => s.price) ∧
        (∀ q ∈ rs.map (fun s => s.price), r.best_price ≤ q)) ∧
    (∀ (excluded : List String) (now daysBack : ℤ)
       (data : List (String × List RawEntry)),
      bwSummaries excluded now daysBack data ≠ [] →
      bwAllPrices excluded now daysBack data ≠ []) := by
  refine ⟨?_, ?_, ?_⟩
  · intro name ap
    unfold bwSummarize
    split
    · rfl
    · rfl
  · intro name ap rs hap hrs
    have hs : sortByPrice rs ≠ [] := by
      intro he
      exact hrs (List.Perm.eq_nil (he ▸ (List.perm_insertionSort _ rs).symm))
    cases hsp : sortByPrice rs with
    | nil => exact absurd hsp hs
    | cons best rest =>
      have hap' : ap.isEmpty = false := by
        cases ap with
        | nil => exact absurd rfl hap
        | cons _ _ => rfl
      have hsorted0 : List.Sorted (fun a b : RetailerSummary => a.price ≤ b.price)
          (best :: rest) := by
        rw [← hsp]
        exact List.sorted_insertionSort _ rs
      have hperm : (best :: rest).Perm rs := by
        rw [← hsp]
        exact List.perm_insertionSort _ rs
      have hbs : bwSummarize name ap rs =
          some ⟨name, best.price, best.name, best.url, pyRound 2 (pyMean ap),
            pyRound 2 (pyMean ap - best.price),
            pyRound 1 ((pyMean ap - best.price) / pyMean ap * 100),
            (best :: rest).length, ap.length, best :: rest⟩ := by
        unfold bwSummarize
        rw [hsp]
        simp [hap']
      refine ⟨_, hbs, hperm, hsorted0, ⟨best, rest, rfl, rfl, rfl, rfl⟩, ?_, ?_⟩
      · exact List.mem_map_of_mem _ (hperm.mem_iff.mp (List.mem_cons_self _ _))
      · intro q hq
        obtain ⟨s, hsmem, rfl⟩ := List.mem_map.mp hq
        have hs2 : s ∈ best :: rest := hperm.mem_iff.mpr hsmem
        rcases List.mem_cons.mp hs2 with rfl | hs2
        · exact le_refl _
        · exact (List.sorted_cons.mp hsorted0).1 s hs2
  · intro excluded now db data
    induction data with
    | nil => intro h; exact absurd rfl h
    | cons kv rest ih =>
      intro h
      rw [bwSummaries] at h
      rw [bwAllPrices]
      by_cases hg : bwSummaryG excluded now db kv = []
      · rw [hg, List.nil_append] at h
        intro he
        rcases List.append_eq_nil.mp he with ⟨-, h2⟩
        exact ih h h2
      · unfold bwSummaryG at hg
        by_cases hk : isExcluded excluded kv.1
        · rw [if_pos hk] at hg
          exact absurd rfl hg
        · rw [if_neg hk] at hg
          by_cases hr : (bwRecentPrices now db kv.2).isEmpty
          · simp only [hr, if_true] at hg
            exact absurd trivial hg
          · have hkept : bwKeptRecords now db kv.2 ≠ [] := by
              intro he
              unfold bwRecentPrices at hr
              rw [he] at hr
              simp at hr
            have hprices : bwRetailerPrices now db kv.2 ≠ [] := by
              unfold bwRetailerPrices
              simpa using hkept
            intro he
            rcases List.append_eq_nil.mp he with ⟨h1, -⟩
            unfold bwAllPricesG at h1
            rw [if_neg hk] at h1
            exact hprices h1

/-- Witness for c4_summarize_properties: one aggregate and one price sample
produce a summary. -/
theorem c4_witness :
    bwSummarize "n" [38] [⟨"eBay", "u", 38, 38, 1⟩] ≠ none := by
  obtain ⟨r, hr, -⟩ := c4_summarize_properties.2.1 "n" [38]
    [⟨"eBay", "u", 38, 38, 1⟩] (by simp) (by simp)
  rw [hr]
  simp

/-! Claim C5: the summary statistics. -/

theorem roundHalfEven_of_lt (q : ℚ) (n : ℤ) (h1 : ⌊q⌋ = n)
    (h2 : q - n < 1 / 2) : roundHalfEven q = n := by
  unfold roundHalfEven
  rw [h1, if_pos h2]

/-- C5 counterexample: with pooled prices 1, 1, 2 and best price 1 the code
reports savings_pct = 25 (computed from the unrounded mean 4/3), while the
claim's formula round(savings_amount / average_price * 100, 1) over the
rounded fields 0.33 and 1.33 yields 24.8. -/
theorem c5_counterexample :
    (bwSummarize "n" [1, 1, 2] [⟨"eBay", "u", 1, 4 / 3, 3⟩]).map
        (fun r => (r.average_price, r.savings, r.savings_pct)) =
      some (133 / 100, 33 / 100, 25) ∧
    pyRound 1 ((33 : ℚ) / 100 / (133 / 100) * 100) = 124 / 5 ∧
    ((25 : ℚ) ≠ 124 / 5) := by
  have hmean : pyMean [(1 : ℚ), 1, 2] = 4 / 3 := by
    simp [pyMean]
    norm_num
  have h1 : pyRound 2 ((4 : ℚ) / 3) = 133 / 100 := by
    unfold pyRound
    rw [roundHalfEven_of_lt ((4 : ℚ) / 3 * 10 ^ 2) 133 (by norm_num) (by norm_num)]
    norm_num
  have h2 : pyRound 2 ((4 : ℚ) / 3 - 1) = 33 / 100 := by
    unfold pyRound
    rw [roundHalfEven_of_lt (((4 : ℚ) / 3 - 1) * 10 ^ 2) 33 (by norm_num) (by norm_num)]
    norm_num
  have h3 : pyRound 1 (((4 : ℚ) / 3 - 1) / ((4 : ℚ) / 3) * 100) = 25 := by
    have he : ((4 : ℚ) / 3 - 1) / ((4 : ℚ) / 3) * 100 = 25 := by norm_num
    rw [he]
    unfold pyRound
    rw [roundHalfEven_of_lt ((25 : ℚ) * 10 ^ 1) 250 (by norm_num) (by norm_num)]
    norm_num
  refine ⟨?_, ?_, by norm_num⟩
  · simp only [bwSummarize, sortByPrice, List.insertionSort, List.orderedInsert,
      List.isEmpty_cons, Bool.false_eq_true, if_false, Option.map_some']
    rw [hmean, h1, h2, h3]
  · unfold pyRound
    rw [roundHalfEven_of_lt ((33 : ℚ) / 100 / (133 / 100) * 100 * 10 ^ 1) 248
      (by norm_num) (by norm_num)]
    norm_num

/-- C5 amended: average_price is the pooled mean rounded to 2 decimals,
where the pool takes in every kept price of every non-excluded retailer;
savings and savings percentage are computed from the unrounded mean:
savings = round(mean - best_price, 2) and
savings_pct = round((mean - best_price) / mean * 100, 1), the scraper
variant guarding the percentage with mean > 0, else 0. -/
theorem c5_amended_rounding :
    (∀ (name : String) (ap : List ℚ) (rs : List RetailerSummary) (r : BWResult),
      bwSummarize name ap rs = some r →
      r.average_price = pyRound 2 (pyMean ap) ∧
      r.savings = pyRound 2 (pyMean ap - r.best_price) ∧
      r.savings_pct = pyRound 1 ((pyMean ap - r.best_price) / pyMean ap * 100)) ∧
    (∀ (excluded : List String) (now daysBack : ℤ)
       (data : List (String × List RawEntry)) (kv : String × List RawEntry),
      kv ∈ data → isExcluded excluded kv.1 = false →
      ∀ p ∈ bwRetailerPrices now daysBack kv.2,
        p ∈ bwAllPrices excluded now daysBack data) ∧
    (∀ (excluded : List String) (now daysBack : ℤ)
       (data : List (String × List RawEntry)) (res : ScrapeResult),
      scrapeAnalyze excluded now daysBack data = some res →
      res.average_price =
        pyRound 2 (pyMean (historicalPrices excluded now daysBack data)) ∧
      res.savings =
        pyRound 2 (pyMean (historicalPrices excluded now daysBack data) -
          res.price) ∧
      res.savings_percentage =
        if 0 < pyMean (historicalPrices excluded now daysBack data) then
          pyRound 1 ((pyMean (historicalPrices excluded now daysBack data) -
            res.price) / pyMean (historicalPrices excluded now daysBack data) * 100)
        else 0) := by
  refine ⟨?_, ?_, ?_⟩
  · intro name ap rs r h
    unfold bwSummarize at h
    split at h
    case isTrue => exact absurd h (by simp)
    case isFalse =>
    cases hsp : sortByPrice rs with
    | nil => rw [hsp] at h; exact absurd h (by simp)
    | cons best rest =>
      rw [hsp] at h
      cases h
      exact ⟨rfl, rfl, rfl⟩
  · intro excluded now db data
    induction data with
    | nil => intro kv h; exact absurd h (List.not_mem_nil kv)
    | cons kv0 rest ih =>
      intro kv hmem hx p hp
      rw [bwAllPrices]
      rcases List.mem_cons.mp hmem with rfl | hmem
      · refine List.mem_append.mpr (Or.inl ?_)
        unfold bwAllPricesG
        rw [if_neg (by simp [hx])]
        exact hp
      · exact List.mem_append.mpr (Or.inr (ih kv hmem hx p hp))
  · intro excluded now db data res h
    simp only [scrapeAnalyze] at h
    split at h
    case isTrue => exact absurd h (by simp)
    case isFalse =>
    split at h
    case isTrue => exact absurd h (by simp)
    case isFalse =>
    cases hm : pyMinBy (fun p => p.2.price)
        (scrapeCurrentsFinal excluded now db data) with
    | none => rw [hm] at h; exact absurd h (by simp)
    | some best =>
      rw [hm] at h
      cases h
      exact ⟨rfl, rfl, rfl⟩

/-- Witness for c5_amended_rounding: the recent eBay sample price 38 is pooled
into all_prices. -/
theorem c5_amended_witness :
    (38 : ℚ) ∈ bwAllPrices [] exNow 30 [(exEbayUrl, [exEntryRecent])] :=
  c5_amended_rounding.2.1 [] exNow 30 [(exEbayUrl, [exEntryRecent])]
    (exEbayUrl, [exEntryRecent]) (by simp) (by decide) 38 (by decide)

/-! Claim C8: the previous-discount rederivation. -/

/-- C8 counterexample: a prior summary whose stored best price is 0 makes the
scheduler's truthiness guard yield 0, while the claim's formula
(prev_avg - prev_best) / prev_avg * 100 yields 100. -/
theorem c8_counterexample :
    previousDiscountPercent (some ⟨some 0, some 50⟩) = 0 ∧
    ((50 : ℚ) - 0) / 50 * 100 = 100 ∧
    (0 : ℚ) ≠ 100 := by
  refine ⟨?_, by norm_num, by norm_num⟩
  simp [previousDiscountPercent, optTruthy]

/-- C8 amended: previous_discount_percent is rederived from the prior
persisted summary's stored average and best price as
(prev_avg - prev_best) / prev_avg * 100 whenever both stored values are
present and nonzero, and is 0 otherwise -- in particular 0 when no prior
summary exists; the rederivation is a function of those two stored columns
only, so no explicitly stored last-notified discount is consulted.  The new
discount is computed by the same formula from the fresh best and average. -/
theorem c8_amended_previous_discount :
    previousDiscountPercent none = 0 ∧
    (∀ avg best : ℚ, avg ≠ 0 → best ≠ 0 →
      previousDiscountPercent (some ⟨some best, some avg⟩) =
        (avg - best) / avg * 100) ∧
    (∀ p : PriorProduct,
      optTruthy p.average_price = false ∨ optTruthy p.best_price = false →
      previousDiscountPercent (some p) = 0) ∧
    (∀ newBest newAvg : ℚ, newAvg ≠ 0 → newBest ≠ 0 →
      newDiscountPercent newBest newAvg = (newAvg - newBest) / newAvg * 100) := by
  refine ⟨rfl, ?_, ?_, ?_⟩
  · intro avg best h1 h2
    simp [previousDiscountPercent, optTruthy, h1, h2]
  · intro p h
    rcases h with h | h <;> simp [previousDiscountPercent, h]
  · intro newBest newAvg h1 h2
    simp [newDiscountPercent, h1, h2]

/-- Witness for c8_amended_previous_discount: stored average 50 and best 25
rederive to the formula value. -/
theorem c8_amended_witness :
    previousDiscountPercent (some ⟨some 25, some 50⟩) = ((50 : ℚ) - 25) / 50 * 100 :=
  c8_amended_previous_discount.2.1 50 25 (by norm_num) (by norm_num)

end PriceMonitor
